import Mathlib

/-!
Verification of the `xcursor-rs` crate against its specification.

The embedding models the two halves of the crate:

* `src/parser.rs` — the XCursor binary parser.  A byte stream is a list of
  bytes (`List Nat`) together with a read position; all reader primitives
  (`takeBytes`, `tagAt`, `u32le`) return the new position, mirroring the
  fact that the Rust `Read` trait never mutates the underlying buffer of a
  `Cursor`, only its position.  Fallible operations return
  `Except ParseErr`.

* `src/lib.rs` — cursor-theme loading.  The filesystem is an explicit
  oracle (`FileSystem`), paths are component lists, and the unbounded
  inheritance recursion of `load_icon` is modelled with explicit fuel.
-/

namespace Xcursor

/-- The distinct error outcomes of the parser in `src/parser.rs`:
`eof` models a failed `read_exact` (short read / I/O failure), the others
correspond to the explicit `Error::new(ErrorKind::Other, ..)` sites. -/
inductive ParseErr where
  | eof
  | tagMismatch
  | imageTooLarge
  | zeroSizeImage
  | hotspotOutside
deriving DecidableEq, Repr

instance {ε α : Type} [DecidableEq ε] [DecidableEq α] :
    DecidableEq (Except ε α) := fun x y =>
  match x, y with
  | .ok a, .ok b =>
    match decEq a b with
    | isTrue h => isTrue (h ▸ rfl)
    | isFalse h => isFalse fun hc => h (Except.ok.inj hc)
  | .error a, .error b =>
    match decEq a b with
    | isTrue h => isTrue (h ▸ rfl)
    | isFalse h => isFalse fun hc => h (Except.error.inj hc)
  | .ok _, .error _ => isFalse fun hc => Except.noConfusion hc
  | .error _, .ok _ => isFalse fun hc => Except.noConfusion hc

/-- `StreamExt::take_bytes` on a `Cursor`: read exactly `n` bytes starting
at position `p` of buffer `d`; fails (like `read_exact`) when fewer than
`n` bytes remain.  Returns the bytes and the new position. -/
def takeBytes (d : List Nat) (p n : Nat) : Except ParseErr (List Nat × Nat) :=
  if p + n ≤ d.length then .ok ((d.drop p).take n, p + n) else .error .eof

/-- `StreamExt::tag`: read `t.length` bytes and require them to equal `t`. -/
def tagAt (d : List Nat) (p : Nat) (t : List Nat) : Except ParseErr Nat :=
  match takeBytes d p t.length with
  | .ok (bytes, q) => if bytes = t then .ok q else .error .tagMismatch
  | .error e => .error e

/-- `u32::from_le_bytes` on a 4-byte list. -/
def le32 : List Nat → Nat
  | [b0, b1, b2, b3] => b0 + 256 * b1 + 65536 * b2 + 16777216 * b3
  | _ => 0

/-- `StreamExt::u32_le`: read 4 bytes and decode little-endian. -/
def u32le (d : List Nat) (p : Nat) : Except ParseErr (Nat × Nat) :=
  match takeBytes d p 4 with
  | .ok (bytes, q) => .ok (le32 bytes, q)
  | .error e => .error e

/-- `rgba_to_argb` from `src/parser.rs`: walk the buffer in 4-byte chunks,
emit each chunk rotated `(c0,c1,c2,c3) ↦ (c3,c0,c1,c2)`, and stop at a
trailing chunk of fewer than 4 bytes. -/
def rgba_to_argb : List Nat → List Nat
  | c0 :: c1 :: c2 :: c3 :: rest => c3 :: c0 :: c1 :: c2 :: rgba_to_argb rest
  | _ => []

/-- The `Image` struct from `src/parser.rs` (pixel buffers as byte lists). -/
structure Image where
  size : Nat
  width : Nat
  height : Nat
  xhot : Nat
  yhot : Nat
  delay : Nat
  pixels_rgba : List Nat
  pixels_argb : List Nat
deriving DecidableEq, Repr

/-- The `Toc` struct from `src/parser.rs`. -/
structure Toc where
  toctype : Nat
  subtype : Nat
  pos : Nat
deriving DecidableEq, Repr

/-- The payload-length computation `4 * width * height` of `parse_img`,
performed in 32-bit unsigned arithmetic (each multiplication reduced
mod 2^32, as on `u32`). -/
def imgLength (width height : Nat) : Nat :=
  (4 * width % 4294967296) * height % 4294967296

/-- `parse_img` from `src/parser.rs`: fixed header-size and type tags, the
six `u32` fields, the three well-formedness checks (in source order), then
the pixel payload. -/
def parse_img (d : List Nat) (p0 : Nat) : Except ParseErr (Image × Nat) := do
  let p1 ← tagAt d p0 [0x24, 0x00, 0x00, 0x00]
  let p2 ← tagAt d p1 [0x02, 0x00, 0xfd, 0xff]
  let (size, p3) ← u32le d p2
  let p4 ← tagAt d p3 [0x01, 0x00, 0x00, 0x00]
  let (width, p5) ← u32le d p4
  let (height, p6) ← u32le d p5
  let (xhot, p7) ← u32le d p6
  let (yhot, p8) ← u32le d p7
  let (delay, p9) ← u32le d p8
  if width > 0x7fff ∨ height > 0x7fff then
    .error .imageTooLarge
  else if width = 0 ∨ height = 0 then
    .error .zeroSizeImage
  else if xhot > width ∨ yhot > height then
    .error .hotspotOutside
  else do
    let (pixels_rgba, p10) ← takeBytes d p9 (imgLength width height)
    .ok ({ size, width, height, xhot, yhot, delay,
           pixels_rgba, pixels_argb := rgba_to_argb pixels_rgba }, p10)

/-- `parse_header`: the `Xcur` magic, two ignored `u32`s, then `ntoc`. -/
def parse_header (d : List Nat) (p0 : Nat) : Except ParseErr (Nat × Nat) := do
  let p1 ← tagAt d p0 [0x58, 0x63, 0x75, 0x72]
  let (_, p2) ← u32le d p1
  let (_, p3) ← u32le d p2
  u32le d p3

/-- `parse_toc`: three `u32`s forming a table-of-contents entry. -/
def parse_toc (d : List Nat) (p0 : Nat) : Except ParseErr (Toc × Nat) := do
  let (toctype, p1) ← u32le d p0
  let (subtype, p2) ← u32le d p1
  let (pos, p3) ← u32le d p2
  .ok ({ toctype, subtype, pos }, p3)

/-- The first loop of `parse_xcursor_stream`: parse `n` table-of-contents
entries, collecting the positions of those whose type is `0xfffd0002`. -/
def tocLoop (d : List Nat) (p : Nat) : Nat → Except ParseErr (List Nat × Nat)
  | 0 => .ok ([], p)
  | n + 1 => do
    let (toc, p1) ← parse_toc d p
    let (idx, p2) ← tocLoop d p1 n
    .ok (if toc.toctype = 0xfffd0002 then toc.pos :: idx else idx, p2)

/-- The second loop of `parse_xcursor_stream`: for each collected index,
seek there (replace the position) and parse an image chunk. -/
def imgLoop (d : List Nat) (p : Nat) : List Nat → Except ParseErr (List Image × Nat)
  | [] => .ok ([], p)
  | i :: rest => do
    let (img, p1) ← parse_img d i
    let (imgs, p2) ← imgLoop d p1 rest
    .ok (img :: imgs, p2)

/-- `parse_xcursor_stream` from `src/parser.rs`. -/
def parse_xcursor_stream (d : List Nat) : Except ParseErr (List Image) := do
  let (ntoc, p1) ← parse_header d 0
  let (idx, p2) ← tocLoop d p1 ntoc
  let (imgs, _) ← imgLoop d p2 idx
  .ok imgs

/-- `parse_xcursor` from `src/parser.rs`: run the stream parser on an
in-memory cursor and discard the error via `.ok()`. -/
def parse_xcursor (content : List Nat) : Option (List Image) :=
  (parse_xcursor_stream content).toOption

/-- The full sequence of table-of-contents entries, without filtering:
the reference reading of the first loop, used to state what
`parse_xcursor_stream` skips and keeps. -/
def parseTocN (d : List Nat) (p : Nat) : Nat → Except ParseErr (List Toc × Nat)
  | 0 => .ok ([], p)
  | n + 1 => do
    let (toc, p1) ← parse_toc d p
    let (tocs, p2) ← parseTocN d p1 n
    .ok (toc :: tocs, p2)

/-- Decode a single image chunk at absolute offset `p`, keeping only the
image (the reference reading of one iteration of the second loop). -/
def decodeAt (d : List Nat) (p : Nat) : Except ParseErr Image :=
  (parse_img d p).map Prod.fst

/-- Decode an image chunk at each offset in order, failing as soon as one
chunk fails: the reference reading of the second loop, free of the
threaded stream position. -/
def decodeAll (d : List Nat) : List Nat → Except ParseErr (List Image)
  | [] => .ok []
  | p :: rest => do
    let img ← decodeAt d p
    let imgs ← decodeAll d rest
    .ok (img :: imgs)

/-! ### Theme loading (`src/lib.rs`) -/

/-- The Rust `char::is_whitespace` predicate: the Unicode `White_Space` property. -/
def rustIsWhitespace (c : Char) : Bool :=
  c.toNat ∈ [0x9, 0xA, 0xB, 0xC, 0xD, 0x20, 0x85, 0xA0, 0x1680,
             0x2028, 0x2029, 0x202F, 0x205F, 0x3000]
  || (0x2000 ≤ c.toNat && c.toNat ≤ 0x200A)

/-- The `is_xcursor_space_or_separator` closure of `parse_theme`. -/
def isXcursorSpaceOrSeparator (c : Char) : Bool :=
  rustIsWhitespace c || c = ';' || c = ','

/-- Remove one trailing carriage return, as `str::lines` does for a line
that ended in `\r\n`. -/
def stripCR (l : List Char) : List Char :=
  if l.getLast? = some '\x0d' then l.dropLast else l

/-- Worker for `rustLines`: accumulate the current line (reversed); a
newline ends a line (whose trailing `\r`, if any, is stripped); a final
line without a newline is kept verbatim, and a trailing newline produces
no extra empty line. -/
def linesAux : List Char → List Char → List (List Char)
  | [], acc => if acc = [] then [] else [acc.reverse]
  | c :: rest, acc =>
    if c = '\n' then stripCR acc.reverse :: linesAux rest []
    else linesAux rest (c :: acc)

/-- The Rust `str::lines` iterator. -/
def rustLines (s : List Char) : List (List Char) :=
  linesAux s []

/-- One iteration of the `parse_theme` loop on a single line: the line
must start with the literal `Inherits` (no trimming before the test),
then after optional whitespace an `=`, then the value is the first
maximal run of non-separator characters after skipping separators;
an empty value does not qualify. -/
def parseThemeLine (line : List Char) : Option String :=
  if List.isPrefixOf "Inherits".data line then
    let after := (line.drop 8).dropWhile rustIsWhitespace
    if after.head? = some '=' then
      let result := (after.tail.dropWhile isXcursorSpaceOrSeparator).takeWhile
        (fun c => !isXcursorSpaceOrSeparator c)
      if result.isEmpty then none else some (String.mk result)
    else none
  else none

/-- `parse_theme` from `src/lib.rs`: scan the lines in order and return
the value of the first line that qualifies. -/
def parse_theme (content : String) : Option String :=
  (rustLines content.data).findSome? parseThemeLine

/-- The filesystem oracle: directory/file existence tests and file
reading, as used by `CursorTheme::load`, `load_icon` and
`theme_inherits`.  Paths are lists of components. -/
structure FileSystem where
  isDir : List String → Bool
  isFile : List String → Bool
  readFile : List String → Option String

/-- `theme_inherits` from `src/lib.rs`: read the file (any failure gives
`None`) and parse it. -/
def theme_inherits (fs : FileSystem) (p : List String) : Option String :=
  (fs.readFile p).bind parse_theme

/-- The `CursorTheme` struct from `src/lib.rs`. -/
structure CursorTheme where
  name : String
  dirs : List (List String)
  inherits : String
  search_paths : List (List String)
deriving DecidableEq, Repr

/-- `CursorTheme::load`: collect the existing `root/name` directories in
search-path order, then fold over them letting each directory with a
parseable `index.theme` inheritance overwrite the `inherits` field,
starting from `"default"`. -/
def CursorTheme.load (fs : FileSystem) (name : String)
    (search_paths : List (List String)) : CursorTheme :=
  let dirs := (search_paths.map (fun p => p ++ [name])).filter fs.isDir
  let inherits := dirs.foldl
    (fun acc d => (theme_inherits fs (d ++ ["index.theme"])).getD acc)
    "default"
  { name, dirs, inherits, search_paths }

/-- `CursorTheme::load_icon`, with explicit fuel bounding the inheritance
recursion (the Rust original recurses unboundedly on cyclic inheritance;
fuel `0` stands for a cut-off traversal).  Per call: return the first
`dir/cursors/icon` that is a file, otherwise stop with `none` on a
self-inheriting theme, otherwise recurse into the inherited theme. -/
def CursorTheme.load_icon (fs : FileSystem) :
    Nat → CursorTheme → String → Option (List String)
  | 0, _, _ => none
  | fuel + 1, theme, icon =>
    match theme.dirs.find? (fun d => fs.isFile (d ++ ["cursors", icon])) with
    | some d => some (d ++ ["cursors", icon])
    | none =>
      if theme.name = theme.inherits then none
      else CursorTheme.load_icon fs fuel
        (CursorTheme.load fs theme.inherits theme.search_paths) icon

/-- The sample XCursor file from the test suite of the repository: a container
with one table-of-contents entry pointing at a single 4x4 image. -/
def sampleFile : List Nat := [
  0x58, 0x63, 0x75, 0x72, 0x10, 0x00, 0x00, 0x00, 0x00, 0x00, 0x01, 0x00, 0x01, 0x00, 0x00,
  0x00, 0x02, 0x00, 0xFD, 0xFF, 0x04, 0x00, 0x00, 0x00, 0x1C, 0x00, 0x00, 0x00, 0x24, 0x00,
  0x00, 0x00, 0x02, 0x00, 0xFD, 0xFF, 0x04, 0x00, 0x00, 0x00, 0x01, 0x00, 0x00, 0x00, 0x04,
  0x00, 0x00, 0x00, 0x04, 0x00, 0x00, 0x00, 0x01, 0x00, 0x00, 0x00, 0x01, 0x00, 0x00, 0x00,
  0x01, 0x00, 0x00, 0x00, 0x00, 0x00, 0x00, 0x80, 0x00, 0x00, 0x00, 0x80, 0x00, 0x00, 0x00,
  0x80, 0x00, 0x00, 0x00, 0x80, 0x00, 0x00, 0x00, 0x80, 0x00, 0x00, 0x00, 0x80, 0x00, 0x00,
  0x00, 0x80, 0x00, 0x00, 0x00, 0x80, 0x00, 0x00, 0x00, 0x80, 0x00, 0x00, 0x00, 0x80, 0x00,
  0x00, 0x00, 0x80, 0x00, 0x00, 0x00, 0x80, 0x00, 0x00, 0x00, 0x80, 0x00, 0x00, 0x00, 0x80,
  0x00, 0x00, 0x00, 0x80, 0x00, 0x00, 0x00, 0x80]

/-- A container whose header and single table-of-contents entry are
well-formed but whose image chunk offset points at the end of the data,
so decoding the chunk fails. -/
def badFile : List Nat :=
  [0x58, 0x63, 0x75, 0x72, 0x00, 0x00, 0x00, 0x00, 0x00, 0x00, 0x00, 0x00,
   0x01, 0x00, 0x00, 0x00, 0x02, 0x00, 0xfd, 0xff, 0x00, 0x00, 0x00, 0x00,
   0x1c, 0x00, 0x00, 0x00]

/-! ### Pixel-rotation lemmas -/

lemma rgba_rot4 : ∀ l : List Nat, l.length % 4 = 0 →
    rgba_to_argb (rgba_to_argb (rgba_to_argb (rgba_to_argb l))) = l
  | [], _ => rfl
  | [_], h => by simp at h
  | [_, _], h => by simp at h
  | [_, _, _], h => by simp at h
  | c0 :: c1 :: c2 :: c3 :: rest, h => by
    have hr : rest.length % 4 = 0 := by
      simp only [List.length_cons] at h
      omega
    simp [rgba_to_argb, rgba_rot4 rest hr]

lemma rgba_len : ∀ l : List Nat, (rgba_to_argb l).length = l.length - l.length % 4
  | [] => rfl
  | [_] => rfl
  | [_, _] => rfl
  | [_, _, _] => rfl
  | _ :: _ :: _ :: _ :: rest => by
    simp only [rgba_to_argb, List.length_cons, rgba_len rest]
    omega

/-- C7: for every pixel buffer whose length is a multiple of 4, applying
the channel rotation four times returns the original buffer, and a single
application maps each 4-byte group `(c0,c1,c2,c3)` to `(c3,c0,c1,c2)`. -/
theorem rgba_to_argb_rotation (l : List Nat) :
    (l.length % 4 = 0 →
      rgba_to_argb (rgba_to_argb (rgba_to_argb (rgba_to_argb l))) = l) ∧
    (∀ c0 c1 c2 c3 rest : _,
      rgba_to_argb (c0 :: c1 :: c2 :: c3 :: rest)
        = c3 :: c0 :: c1 :: c2 :: rgba_to_argb rest) :=
  ⟨rgba_rot4 l, fun _ _ _ _ _ => rfl⟩

/-- Witness for C7 at the 8-byte buffer used by the repository test. -/
theorem rgba_to_argb_rotation_witness :
    rgba_to_argb (rgba_to_argb (rgba_to_argb (rgba_to_argb
      [0, 1, 2, 3, 4, 5, 6, 7]))) = [0, 1, 2, 3, 4, 5, 6, 7] :=
  (rgba_to_argb_rotation [0, 1, 2, 3, 4, 5, 6, 7]).1 (by decide)

/-- C8: the channel rotation output has length `len - (len mod 4)`,
ignoring a trailing incomplete 4-byte group; the empty buffer yields the
empty output. -/
theorem rgba_to_argb_length (l : List Nat) :
    (rgba_to_argb l).length = l.length - l.length % 4 ∧
    rgba_to_argb ([] : List Nat) = [] :=
  ⟨rgba_len l, rfl⟩

/-- C9: under the validations of `parse_img` (`1 ≤ width ≤ 0x7fff`,
`1 ≤ height ≤ 0x7fff`) the 32-bit computation `4 * width * height` never
wraps: it equals the mathematical product, which is below `2^32`. -/
theorem imgLength_no_overflow (w h : Nat)
    (_hw1 : 1 ≤ w) (hw2 : w ≤ 0x7fff) (_hh1 : 1 ≤ h) (hh2 : h ≤ 0x7fff) :
    imgLength w h = 4 * w * h ∧ 4 * w * h < 4294967296 := by
  have hbound : 4 * w * h ≤ 4 * 32767 * 32767 :=
    Nat.mul_le_mul (Nat.mul_le_mul_left 4 hw2) hh2
  have hlt : 4 * w * h < 4294967296 := by omega
  have h4w : 4 * w % 4294967296 = 4 * w := Nat.mod_eq_of_lt (by omega)
  refine ⟨?_, hlt⟩
  simp only [imgLength, h4w]
  exact Nat.mod_eq_of_lt hlt

/-- Witness for C9 at the smallest valid image dimensions. -/
theorem imgLength_no_overflow_witness :
    imgLength 1 1 = 4 * 1 * 1 ∧ 4 * 1 * 1 < 4294967296 :=
  imgLength_no_overflow 1 1 (by decide) (by decide) (by decide) (by decide)

/-- C10: the in-memory wrapper `parse_xcursor` returns `some images`
exactly when `parse_xcursor_stream` on the same bytes returns `Ok` with
the same image sequence, and `none` exactly when the stream parse
errors. -/
theorem parse_xcursor_refines_stream (c : List Nat) :
    (∀ imgs, parse_xcursor c = some imgs ↔ parse_xcursor_stream c = .ok imgs) ∧
    (parse_xcursor c = none ↔ ∃ e, parse_xcursor_stream c = .error e) := by
  unfold parse_xcursor
  cases h : parse_xcursor_stream c <;>
    simp [Except.toOption]

/-! ### Theme-loading lemmas -/

lemma getLast?_getD_cons {β : Type} :
    ∀ (i : β) (t : List β) (d : β),
      ((i :: t).getLast?).getD d = (t.getLast?).getD i
  | _, [], _ => rfl
  | i, a :: t, d => by
    rw [List.getLast?_cons_cons, getLast?_getD_cons a t d,
      getLast?_getD_cons a t i]

lemma foldl_overwrite {α β : Type} (f : α → Option β) :
    ∀ (l : List α) (d : β),
      l.foldl (fun acc x => (f x).getD acc) d
        = ((l.filterMap f).getLast?).getD d
  | [], _ => rfl
  | x :: xs, d => by
    cases hfx : f x with
    | none => simp [List.foldl_cons, hfx, foldl_overwrite f xs]
    | some i =>
      simp [List.foldl_cons, hfx, foldl_overwrite f xs, getLast?_getD_cons]

/-- C4: `CursorTheme::load` is total; the returned directories are the
existing `root/name` subdirectories in search-root order, the `inherits`
field is the declaration of the last directory (in that order) whose
`index.theme` yields one, defaulting to `"default"`, and the name and
search paths are stored unchanged. -/
theorem cursorTheme_load_spec (fs : FileSystem) (name : String)
    (roots : List (List String)) :
    (CursorTheme.load fs name roots).name = name ∧
    (CursorTheme.load fs name roots).search_paths = roots ∧
    (CursorTheme.load fs name roots).dirs
      = (roots.map (fun p => p ++ [name])).filter fs.isDir ∧
    (CursorTheme.load fs name roots).inherits
      = ((((roots.map (fun p => p ++ [name])).filter fs.isDir).filterMap
          (fun d => theme_inherits fs (d ++ ["index.theme"]))).getLast?).getD
          "default" := by
  refine ⟨rfl, rfl, rfl, ?_⟩
  exact foldl_overwrite (fun d => theme_inherits fs (d ++ ["index.theme"]))
    ((roots.map (fun p => p ++ [name])).filter fs.isDir) "default"

lemma linesAux_no_newline :
    ∀ (s acc : List Char), (∀ c ∈ s, c ≠ '\n') → (s ≠ [] ∨ acc ≠ []) →
      linesAux s acc = [acc.reverse ++ s]
  | [], acc, _, h => by
    have hacc : acc ≠ [] := by tauto
    simp [linesAux, hacc]
  | c :: rest, acc, hnl, _ => by
    have hc : c ≠ '\n' := hnl c (by simp)
    have ih := linesAux_no_newline rest (c :: acc)
      (fun x hx => hnl x (by simp [hx])) (Or.inr (by simp))
    simp [linesAux, hc, ih]

lemma rustLines_single (s : List Char) (hs : s ≠ [])
    (hnl : ∀ c ∈ s, c ≠ '\n') : rustLines s = [s] := by
  simpa [rustLines] using linesAux_no_newline s [] hnl (Or.inl hs)

lemma dropWhile_append_all {p : Char → Bool} :
    ∀ (l r : List Char), (∀ c ∈ l, p c = true) →
      (l ++ r).dropWhile p = r.dropWhile p
  | [], _, _ => rfl
  | c :: l, r, h => by
    have hc : p c = true := h c (by simp)
    simp [List.dropWhile_cons, hc,
      dropWhile_append_all l r (fun x hx => h x (by simp [hx]))]

lemma takeWhile_all {p : Char → Bool} :
    ∀ l : List Char, (∀ c ∈ l, p c = true) → l.takeWhile p = l
  | [], _ => rfl
  | c :: l, h => by
    have hc : p c = true := h c (by simp)
    simp [List.takeWhile_cons, hc,
      takeWhile_all l (fun x hx => h x (by simp [hx]))]

lemma findSome?_singleton {α β : Type} (f : α → Option β) (a : α) :
    [a].findSome? f = f a := by
  cases h : f a <;> simp [List.findSome?, h]

lemma isPrefixOf_append_self :
    ∀ (l r : List Char), l.isPrefixOf (l ++ r) = true
  | [], _ => by simp [List.isPrefixOf]
  | c :: l, r => by
    simp [List.isPrefixOf, isPrefixOf_append_self l r]

/-- C5 counterexample: a line with leading whitespace before `Inherits`
does not qualify — the code tests the untrimmed line, and the repository
test suite expects this input to yield `None`. -/
theorem parse_theme_leading_whitespace_cex :
    parse_theme (String.mk
      [' ', 'I', 'n', 'h', 'e', 'r', 'i', 't', 's', '=', 'a']) = none := by
  decide

/-- C5 (amended): a line that starts with the literal token `Inherits` at
its very beginning (no leading whitespace allowed), followed by optional
whitespace, `=`, separators and a non-empty separator-delimited value,
yields that value as the inherited theme name. -/
theorem parse_theme_inherits_line (ws seps value : List Char)
    (hws : ∀ c ∈ ws, rustIsWhitespace c = true ∧ c ≠ '\n')
    (hseps : ∀ c ∈ seps, isXcursorSpaceOrSeparator c = true ∧ c ≠ '\n')
    (hv : value ≠ [])
    (hvsep : ∀ c ∈ value, isXcursorSpaceOrSeparator c = false) :
    parse_theme (String.mk
        ("Inherits".data ++ ws ++ '=' :: (seps ++ value)))
      = some (String.mk value) := by
  obtain ⟨v0, vt, rfl⟩ : ∃ v0 vt, value = v0 :: vt := by
    cases value with
    | nil => exact absurd rfl hv
    | cons a t => exact ⟨a, t, rfl⟩
  have hvnl : ∀ c ∈ v0 :: vt, c ≠ '\n' := by
    intro c hc he
    have := hvsep c hc
    rw [he] at this
    simp [isXcursorSpaceOrSeparator, rustIsWhitespace] at this
  have hInh : ∀ c ∈ "Inherits".data, c ≠ '\n' := by decide
  have hsnl : ∀ c ∈ "Inherits".data ++ ws ++ '=' :: (seps ++ (v0 :: vt)),
      c ≠ '\n' := by
    intro c hc
    rcases List.mem_append.mp hc with hc | hc
    · rcases List.mem_append.mp hc with hc | hc
      · exact hInh c hc
      · exact (hws c hc).2
    · rcases List.mem_cons.mp hc with hc | hc
      · subst hc; decide
      · rcases List.mem_append.mp hc with hc | hc
        · exact (hseps c hc).2
        · exact hvnl c hc
  have hne : "Inherits".data ++ ws ++ '=' :: (seps ++ (v0 :: vt)) ≠ [] := by
    simp
  have hassoc : "Inherits".data ++ ws ++ '=' :: (seps ++ (v0 :: vt))
      = "Inherits".data ++ (ws ++ '=' :: (seps ++ (v0 :: vt))) := by
    simp [List.append_assoc]
  have hafter : (ws ++ '=' :: (seps ++ (v0 :: vt))).dropWhile rustIsWhitespace
      = '=' :: (seps ++ (v0 :: vt)) := by
    rw [dropWhile_append_all ws _ (fun c hc => (hws c hc).1)]
    simp [List.dropWhile_cons, show rustIsWhitespace '=' = false by decide]
  have hdw : (seps ++ (v0 :: vt)).dropWhile isXcursorSpaceOrSeparator
      = v0 :: vt := by
    rw [dropWhile_append_all seps _ (fun c hc => (hseps c hc).1)]
    simp [List.dropWhile_cons, hvsep v0 (by simp)]
  have htw : (v0 :: vt).takeWhile (fun c => !isXcursorSpaceOrSeparator c)
      = v0 :: vt :=
    takeWhile_all (v0 :: vt) (fun c hc => by simp [hvsep c hc])
  have hline : parseThemeLine
      ("Inherits".data ++ ws ++ '=' :: (seps ++ (v0 :: vt)))
      = some (String.mk (v0 :: vt)) := by
    unfold parseThemeLine
    rw [hassoc, if_pos (isPrefixOf_append_self "Inherits".data _)]
    rw [show ("Inherits".data ++ (ws ++ '=' :: (seps ++ v0 :: vt))).drop 8
        = ws ++ '=' :: (seps ++ v0 :: vt) from List.drop_left "Inherits".data _]
    rw [hafter]
    simp only [List.head?_cons, List.tail_cons, hdw, htw]
    simp
  unfold parse_theme
  rw [show (String.mk
      ("Inherits".data ++ ws ++ '=' :: (seps ++ (v0 :: vt)))).data
      = "Inherits".data ++ ws ++ '=' :: (seps ++ (v0 :: vt)) from rfl]
  rw [rustLines_single _ hne hsnl, findSome?_singleton, hline]

/-- Witness for C5 (amended): `Inherits =;a` yields `a`. -/
theorem parse_theme_inherits_line_witness :
    parse_theme (String.mk
        ("Inherits".data ++ [' '] ++ '=' :: ([';'] ++ ['a'])))
      = some (String.mk ['a']) :=
  parse_theme_inherits_line [' '] [';'] ['a']
    (by decide) (by decide) (by decide) (by decide)

lemma find?_first_index {α : Type} (p : α → Bool) :
    ∀ (l : List α) (i : Nat) (hi : i < l.length),
      p (l.get ⟨i, hi⟩) = true →
      (∀ j (hj : j < l.length), j < i → p (l.get ⟨j, hj⟩) = false) →
      l.find? p = some (l.get ⟨i, hi⟩)
  | [], i, hi, _, _ => absurd hi (by simp)
  | x :: xs, 0, _, hp, _ => by simp_all [List.find?_cons]
  | x :: xs, i + 1, hi, hp, hmin => by
    have hx : p x = false := hmin 0 (by simp) (Nat.succ_pos i)
    have ih := find?_first_index p xs i (by simpa using hi) (by simpa using hp)
      (fun j hj hji =>
        by simpa using hmin (j + 1) (by simpa using hj) (Nat.succ_lt_succ hji))
    simp [List.find?_cons, hx, ih]

/-- C6: on a self-inheriting theme whose directories hold no
`cursors/icon` file, `load_icon` stops and returns `none` without using
any recursion fuel; and whenever some directory holds the file, it
returns the first match in directory order. -/
theorem load_icon_spec (fs : FileSystem) (theme : CursorTheme)
    (icon : String) (fuel : Nat) :
    (theme.name = theme.inherits →
      (∀ d ∈ theme.dirs, fs.isFile (d ++ ["cursors", icon]) = false) →
      CursorTheme.load_icon fs (fuel + 1) theme icon = none) ∧
    (∀ i (hi : i < theme.dirs.length),
      fs.isFile (theme.dirs.get ⟨i, hi⟩ ++ ["cursors", icon]) = true →
      (∀ j (hj : j < theme.dirs.length), j < i →
        fs.isFile (theme.dirs.get ⟨j, hj⟩ ++ ["cursors", icon]) = false) →
      CursorTheme.load_icon fs (fuel + 1) theme icon
        = some (theme.dirs.get ⟨i, hi⟩ ++ ["cursors", icon])) := by
  constructor
  · intro hself hnone
    have hfind : theme.dirs.find?
        (fun d => fs.isFile (d ++ ["cursors", icon])) = none := by
      rw [List.find?_eq_none]
      intro d hd
      simp [hnone d hd]
    simp [CursorTheme.load_icon, hfind, hself]
  · intro i hi hp hmin
    have hfind := find?_first_index
      (fun d => fs.isFile (d ++ ["cursors", icon])) theme.dirs i hi hp hmin
    simp [CursorTheme.load_icon, hfind]

/-- Witness for C6: a self-inheriting `default` theme with one empty
directory returns `none` with minimal fuel, and a theme whose first
directory holds the icon returns that path. -/
theorem load_icon_spec_witness :
    CursorTheme.load_icon
      ⟨fun _ => false, fun _ => false, fun _ => none⟩ 1
      ⟨"default", [["r", "default"]], "default", [["r"]]⟩ "left" = none ∧
    CursorTheme.load_icon
      ⟨fun _ => false, fun _ => true, fun _ => none⟩ 1
      ⟨"t", [["a"], ["b"]], "p", []⟩ "left"
      = some ["a", "cursors", "left"] :=
  ⟨(load_icon_spec ⟨fun _ => false, fun _ => false, fun _ => none⟩
      ⟨"default", [["r", "default"]], "default", [["r"]]⟩ "left" 0).1
      rfl (by decide),
   (load_icon_spec ⟨fun _ => false, fun _ => true, fun _ => none⟩
      ⟨"t", [["a"], ["b"]], "p", []⟩ "left" 0).2
      0 (by decide) (by decide) (by decide)⟩

/-! ### Image-chunk validation -/

lemma ebind_ok {ε α β : Type} (a : α) (f : α → Except ε β) :
    (Except.ok a >>= f : Except ε β) = f a := rfl

lemma ebind_err {ε α β : Type} (e : ε) (f : α → Except ε β) :
    (Except.error e >>= f : Except ε β) = Except.error e := rfl

lemma takeBytes_error_eof {d : List Nat} {p n : Nat} {e : ParseErr}
    (h : takeBytes d p n = .error e) : e = .eof := by
  unfold takeBytes at h
  split at h
  · exact absurd h (by simp)
  · simpa using h.symm

/-- C1: once the fixed header fields of an image chunk have parsed, the
result of `parse_img` is the `imageTooLarge` error exactly when
`width > 0x7fff` or `height > 0x7fff`; given dimensions at most `0x7fff`,
the `zeroSizeImage` error exactly when a dimension is `0`; given valid
dimensions, the `hotspotOutside` error exactly when `xhot > width` or
`yhot > height`; and with all checks passed — boundary values included —
the image is returned with every field unclamped. -/
theorem parse_img_validation (d : List Nat)
    (p0 p1 p2 p3 p4 p5 p6 p7 p8 p9 size w hg x y dl : Nat)
    (h1 : tagAt d p0 [0x24, 0x00, 0x00, 0x00] = .ok p1)
    (h2 : tagAt d p1 [0x02, 0x00, 0xfd, 0xff] = .ok p2)
    (h3 : u32le d p2 = .ok (size, p3))
    (h4 : tagAt d p3 [0x01, 0x00, 0x00, 0x00] = .ok p4)
    (h5 : u32le d p4 = .ok (w, p5))
    (h6 : u32le d p5 = .ok (hg, p6))
    (h7 : u32le d p6 = .ok (x, p7))
    (h8 : u32le d p7 = .ok (y, p8))
    (h9 : u32le d p8 = .ok (dl, p9)) :
    (parse_img d p0 = .error .imageTooLarge ↔ 0x7fff < w ∨ 0x7fff < hg) ∧
    (w ≤ 0x7fff → hg ≤ 0x7fff →
      (parse_img d p0 = .error .zeroSizeImage ↔ w = 0 ∨ hg = 0)) ∧
    (w ≤ 0x7fff → hg ≤ 0x7fff → 1 ≤ w → 1 ≤ hg →
      (parse_img d p0 = .error .hotspotOutside ↔ w < x ∨ hg < y)) ∧
    (w ≤ 0x7fff → hg ≤ 0x7fff → 1 ≤ w → 1 ≤ hg → x ≤ w → y ≤ hg →
      ∀ pix q, takeBytes d p9 (imgLength w hg) = .ok (pix, q) →
        parse_img d p0 = .ok
          ({ size, width := w, height := hg, xhot := x, yhot := y,
             delay := dl, pixels_rgba := pix,
             pixels_argb := rgba_to_argb pix }, q)) := by
  have hr : parse_img d p0 =
      if 0x7fff < w ∨ 0x7fff < hg then .error .imageTooLarge
      else if w = 0 ∨ hg = 0 then .error .zeroSizeImage
      else if w < x ∨ hg < y then .error .hotspotOutside
      else takeBytes d p9 (imgLength w hg) >>= fun pr =>
        .ok ({ size, width := w, height := hg, xhot := x, yhot := y,
               delay := dl, pixels_rgba := pr.1,
               pixels_argb := rgba_to_argb pr.1 }, pr.2) := by
    unfold parse_img
    rw [h1]; simp only [ebind_ok]
    rw [h2]; simp only [ebind_ok]
    rw [h3]; simp only [ebind_ok]
    rw [h4]; simp only [ebind_ok]
    rw [h5]; simp only [ebind_ok]
    rw [h6]; simp only [ebind_ok]
    rw [h7]; simp only [ebind_ok]
    rw [h8]; simp only [ebind_ok]
    rw [h9]; simp only [ebind_ok]
  rw [hr]
  refine ⟨?_, ?_, ?_, ?_⟩
  · by_cases hc : 0x7fff < w ∨ 0x7fff < hg
    · simp [hc]
    · rw [if_neg hc]
      simp only [hc, iff_false]
      by_cases hc2 : w = 0 ∨ hg = 0
      · simp [hc2]
      · rw [if_neg hc2]
        by_cases hc3 : w < x ∨ hg < y
        · simp [hc3]
        · rw [if_neg hc3]
          cases htb : takeBytes d p9 (imgLength w hg) with
          | ok pr => simp [ebind_ok]
          | error e => simp [takeBytes_error_eof htb, ebind_err]
  · intro hwle hhle
    rw [if_neg (by omega)]
    by_cases hc2 : w = 0 ∨ hg = 0
    · simp [hc2]
    · rw [if_neg hc2]
      simp only [hc2, iff_false]
      by_cases hc3 : w < x ∨ hg < y
      · simp [hc3]
      · rw [if_neg hc3]
        cases htb : takeBytes d p9 (imgLength w hg) with
        | ok pr => simp [ebind_ok]
        | error e => simp [takeBytes_error_eof htb, ebind_err]
  · intro hwle hhle hw1 hh1
    rw [if_neg (by omega), if_neg (by omega)]
    by_cases hc3 : w < x ∨ hg < y
    · simp [hc3]
    · rw [if_neg hc3]
      simp only [hc3, iff_false]
      cases htb : takeBytes d p9 (imgLength w hg) with
      | ok pr => simp [ebind_ok]
      | error e => simp [takeBytes_error_eof htb, ebind_err]
  · intro hwle hhle hw1 hh1 hxw hyh pix q htb
    rw [if_neg (by omega), if_neg (by omega), if_neg (by omega), htb]
    simp only [ebind_ok]

/-- Witness for C1: a 1x1 image with both hotspot coordinates at their
boundary values is accepted with all fields intact. -/
theorem parse_img_validation_witness :
    parse_img
      [0x24, 0x00, 0x00, 0x00, 0x02, 0x00, 0xfd, 0xff, 0x01, 0x00, 0x00, 0x00,
       0x01, 0x00, 0x00, 0x00, 0x01, 0x00, 0x00, 0x00, 0x01, 0x00, 0x00, 0x00,
       0x01, 0x00, 0x00, 0x00, 0x01, 0x00, 0x00, 0x00, 0x05, 0x00, 0x00, 0x00,
       0x09, 0x08, 0x07, 0x06] 0
      = .ok ({ size := 1, width := 1, height := 1, xhot := 1, yhot := 1,
               delay := 5, pixels_rgba := [0x09, 0x08, 0x07, 0x06],
               pixels_argb := [0x06, 0x09, 0x08, 0x07] }, 40) :=
  (parse_img_validation
      [0x24, 0x00, 0x00, 0x00, 0x02, 0x00, 0xfd, 0xff, 0x01, 0x00, 0x00, 0x00,
       0x01, 0x00, 0x00, 0x00, 0x01, 0x00, 0x00, 0x00, 0x01, 0x00, 0x00, 0x00,
       0x01, 0x00, 0x00, 0x00, 0x01, 0x00, 0x00, 0x00, 0x05, 0x00, 0x00, 0x00,
       0x09, 0x08, 0x07, 0x06]
      0 4 8 12 16 20 24 28 32 36 1 1 1 1 1 5
      (by decide) (by decide) (by decide) (by decide) (by decide) (by decide)
      (by decide) (by decide) (by decide)).2.2.2
    (by decide) (by decide) (by decide) (by decide) (by decide) (by decide)
    [0x09, 0x08, 0x07, 0x06] 40 (by decide)

/-! ### Container structure -/

lemma tocLoop_eq (d : List Nat) : ∀ (n p : Nat),
    tocLoop d p n = (parseTocN d p n).map
      (fun r => ((r.1.filter (fun t => t.toctype = 0xfffd0002)).map Toc.pos,
                 r.2))
  | 0, p => by simp [tocLoop, parseTocN, Except.map]
  | n + 1, p => by
    simp only [tocLoop, parseTocN]
    cases hpt : parse_toc d p with
    | error e => simp [ebind_err, Except.map]
    | ok r =>
      obtain ⟨toc, p1⟩ := r
      simp only [ebind_ok]
      rw [tocLoop_eq d n p1]
      cases hN : parseTocN d p1 n with
      | error e => simp [Except.map, ebind_err]
      | ok r2 =>
        obtain ⟨tocs, p2⟩ := r2
        simp only [Except.map, ebind_ok]
        by_cases htype : toc.toctype = 0xfffd0002 <;>
          simp [List.filter_cons, htype]

lemma imgLoop_fst (d : List Nat) : ∀ (idx : List Nat) (p : Nat),
    (imgLoop d p idx).map Prod.fst = decodeAll d idx
  | [], p => by simp [imgLoop, decodeAll, Except.map]
  | i :: rest, p => by
    simp only [imgLoop, decodeAll]
    cases hp : parse_img d i with
    | error e => simp [ebind_err, Except.map, decodeAt, hp]
    | ok r =>
      obtain ⟨img, p1⟩ := r
      simp only [ebind_ok]
      have ih := imgLoop_fst d rest p1
      cases hl : imgLoop d p1 rest with
      | error e =>
        rw [hl] at ih
        simp [Except.map, ebind_err, ebind_ok, decodeAt, hp, ← ih]
      | ok r2 =>
        obtain ⟨imgs, p2⟩ := r2
        rw [hl] at ih
        simp [Except.map, ebind_err, ebind_ok, decodeAt, hp, ← ih]

lemma parse_stream_eq (d : List Nat) (ntoc p1 : Nat) (tocs : List Toc)
    (p2 : Nat)
    (hh : parse_header d 0 = .ok (ntoc, p1))
    (ht : parseTocN d p1 ntoc = .ok (tocs, p2)) :
    parse_xcursor_stream d
      = decodeAll d
          ((tocs.filter (fun t => t.toctype = 0xfffd0002)).map Toc.pos) := by
  unfold parse_xcursor_stream
  rw [hh]
  simp only [ebind_ok]
  rw [tocLoop_eq d ntoc p1, ht]
  simp only [Except.map, ebind_ok]
  have hfst := imgLoop_fst d
    ((tocs.filter (fun t => t.toctype = 0xfffd0002)).map Toc.pos) p2
  cases hl : imgLoop d p2
      ((tocs.filter (fun t => t.toctype = 0xfffd0002)).map Toc.pos) with
  | error e =>
    rw [hl] at hfst
    simp [ebind_err, ← hfst, Except.map]
  | ok r =>
    obtain ⟨imgs, q⟩ := r
    rw [hl] at hfst
    simp [ebind_ok, ← hfst, Except.map]

/-- C2: when the header and the `ntoc` table-of-contents entries parse,
the whole parse equals decoding one image per entry whose type is
`0xfffd0002` at that offset of that entry, in table-of-contents order; entries
of any other type are skipped. -/
theorem parse_stream_toc_order (d : List Nat) (ntoc p1 : Nat)
    (tocs : List Toc) (p2 : Nat)
    (hh : parse_header d 0 = .ok (ntoc, p1))
    (ht : parseTocN d p1 ntoc = .ok (tocs, p2)) :
    parse_xcursor_stream d
      = decodeAll d
          ((tocs.filter (fun t => t.toctype = 0xfffd0002)).map Toc.pos) :=
  parse_stream_eq d ntoc p1 tocs p2 hh ht

set_option maxRecDepth 40000 in
/-- Witness for C2 at the sample file of the repository. -/
theorem parse_stream_toc_order_witness :
    parse_xcursor_stream sampleFile
      = decodeAll sampleFile
          ((([⟨0xfffd0002, 4, 28⟩] : List Toc).filter
            (fun t => t.toctype = 0xfffd0002)).map Toc.pos) :=
  parse_stream_toc_order sampleFile 1 16 [⟨0xfffd0002, 4, 28⟩] 28
    (by decide) (by decide)

lemma parse_header_magic_fail (d : List Nat)
    (hm : d.take 4 ≠ [0x58, 0x63, 0x75, 0x72]) :
    ∃ e, parse_header d 0 = .error e := by
  have htag : ∃ e, tagAt d 0 [0x58, 0x63, 0x75, 0x72] = .error e := by
    unfold tagAt takeBytes
    by_cases hlen : 0 + ([0x58, 0x63, 0x75, 0x72] : List Nat).length
        ≤ d.length
    · refine ⟨.tagMismatch, ?_⟩
      rw [if_pos hlen]
      simp only [List.drop_zero]
      rw [if_neg (by simpa using hm)]
    · exact ⟨.eof, by rw [if_neg hlen]⟩
  obtain ⟨e, he⟩ := htag
  refine ⟨e, ?_⟩
  unfold parse_header
  rw [he]
  rfl

lemma decodeAll_error_of_mem (d : List Nat) {i : Nat} {e : ParseErr} :
    ∀ l : List Nat, i ∈ l → decodeAt d i = .error e →
      ∃ e2, decodeAll d l = .error e2
  | [], him, _ => absurd him (by simp)
  | x :: xs, him, herr => by
    simp only [decodeAll]
    cases hx : decodeAt d x with
    | error e2 => exact ⟨e2, by simp [ebind_err]⟩
    | ok img =>
      have hmem : i ∈ xs := by
        rcases List.mem_cons.mp him with h | h
        · subst h
          rw [hx] at herr
          exact absurd herr (by simp)
        · exact h
      obtain ⟨e2, h2⟩ := decodeAll_error_of_mem d xs hmem herr
      exact ⟨e2, by simp [ebind_ok, h2, ebind_err]⟩

/-- C3: the container parse is fail-fast.  A container whose first four
bytes are not the `Xcur` magic fails to parse; and if any
table-of-contents entry of image type points at a malformed image chunk,
the whole parse returns an error (the `Except` result type admits no
partial image sequence). -/
theorem parse_stream_fail_fast :
    (∀ d : List Nat, d.take 4 ≠ [0x58, 0x63, 0x75, 0x72] →
      ∃ e, parse_xcursor_stream d = .error e) ∧
    (∀ (d : List Nat) (ntoc p1 : Nat) (tocs : List Toc) (p2 : Nat)
        (t : Toc) (e : ParseErr),
      parse_header d 0 = .ok (ntoc, p1) →
      parseTocN d p1 ntoc = .ok (tocs, p2) →
      t ∈ tocs → t.toctype = 0xfffd0002 →
      decodeAt d t.pos = .error e →
      ∃ e2, parse_xcursor_stream d = .error e2) := by
  constructor
  · intro d hm
    obtain ⟨e, he⟩ := parse_header_magic_fail d hm
    refine ⟨e, ?_⟩
    unfold parse_xcursor_stream
    rw [he]
    rfl
  · intro d ntoc p1 tocs p2 t e hh ht hmem htype herr
    rw [parse_stream_eq d ntoc p1 tocs p2 hh ht]
    refine decodeAll_error_of_mem d _ ?_ herr
    simp only [List.mem_map, List.mem_filter]
    exact ⟨t, ⟨hmem, by simp [htype]⟩, rfl⟩

set_option maxRecDepth 40000 in
/-- Witness for C3: a wrong-magic container fails, and a well-formed
header and table of contents with an image entry pointing past the end
of the data make the whole parse fail. -/
theorem parse_stream_fail_fast_witness :
    (∃ e, parse_xcursor_stream [0, 0, 0, 0] = .error e) ∧
    (∃ e2, parse_xcursor_stream badFile = .error e2) :=
  ⟨parse_stream_fail_fast.1 [0, 0, 0, 0] (by decide),
   parse_stream_fail_fast.2 badFile 1 16 [⟨0xfffd0002, 0, 28⟩] 28
     ⟨0xfffd0002, 0, 28⟩ .eof (by decide) (by decide) (by decide)
     (by decide) (by decide)⟩

end Xcursor
